import Mathlib

/-!
# Verification of the binderhub image-cleaner eviction loop

Shallow embedding of `helm-chart/images/image-cleaner/image-cleaner.py`:
the usage sampler (`get_used_percent`), the deletion-priority ordering
(`image_key` / `get_docker_images`) and the eviction control loop in `main`
(modelled by `runLoop` / `runPass` / `tick`).

Numbers that the Python code handles as floats (usage percentages,
delays, thresholds) are embedded as rationals; image sizes are naturals.
External effects (cordon/uncordon calls, delete attempts, sleeps) are
recorded as an explicit event trace.  The outcome of each runtime delete
call is an oracle `Image → Outcome`; the sequence of usage samples
observed during a pass is an oracle `ℕ → ℚ` indexed by how many samples
the pass has consumed so far.
-/

namespace ImageCleaner

/-! ## Usage sampler -/

/-- The fields of `os.statvfs` that `get_used_percent` reads. -/
structure StatVFS where
  f_bavail : ℕ
  f_blocks : ℕ
  f_favail : ℕ
  f_files : ℕ
deriving Repr, DecidableEq

/-- Embedding of `get_used_percent`.  The Python body computes
`inodes_avail = f_favail / f_files`, `blocks_avail = f_bavail / f_blocks`
and returns `100 * (1 - min(blocks_avail, inodes_avail))`.  A zero total
block or inode count makes the Python division raise `ZeroDivisionError`,
so the embedding is `Option`-valued and returns `none` exactly there. -/
def get_used_percent (s : StatVFS) : Option ℚ :=
  if s.f_files = 0 ∨ s.f_blocks = 0 then none
  else
    let inodes_avail : ℚ := (s.f_favail : ℚ) / (s.f_files : ℚ)
    let blocks_avail : ℚ := (s.f_bavail : ℚ) / (s.f_blocks : ℚ)
    some (100 * (1 - min blocks_avail inodes_avail))

/-! ## Image inventory and ordering -/

/-- An image record as the cleaner sees it: runtime id, tag list and
`attrs["Size"]` in bytes. -/
structure Image where
  id : String
  tags : List String
  size : ℕ
deriving Repr, DecidableEq

/-- Embedding of `image_key`: the Python key `(not image.tags, size)`.
`not image.tags` is `True` exactly when the tag list is empty. -/
def image_key (i : Image) : Bool × ℕ := (i.tags.isEmpty, i.size)

/-- Python tuple `≤` on `(bool, int)` keys, with `False < True`. -/
def keyLe (a b : Bool × ℕ) : Prop :=
  (a.1 = false ∧ b.1 = true) ∨ (a.1 = b.1 ∧ a.2 ≤ b.2)

instance : DecidableRel keyLe := fun a b => by
  unfold keyLe; infer_instance

/-- The relation `images.sort(key=image_key, reverse=True)` sorts by:
`a` precedes `b` when `image_key b ≤ image_key a` (descending, and a
stable sort keeps ties in input order, matching CPython). -/
def imageRel (a b : Image) : Prop := keyLe (image_key b) (image_key a)

instance : DecidableRel imageRel := fun a b => by
  unfold imageRel; infer_instance

/-- Embedding of `get_docker_images`: the image list of the runtime sorted
descending by `image_key`, via a stable sort (the CPython `list.sort` is
stable; the Mathlib `insertionSort` is stable as well). -/
def get_docker_images (l : List Image) : List Image :=
  List.insertionSort imageRel l

/-! ## Eviction engine -/

/-- Classified outcome of one runtime delete call, following the
`try/except` arms in `main`: success, `APIError` with status 409
(conflict), `APIError` with status 404 (not found),
`requests.exceptions.ReadTimeout`, or any other error (which the code
re-raises). -/
inductive Outcome
  | success
  | conflict
  | notFound
  | timeout
  | fatal
deriving Repr, DecidableEq

/-- Observable external actions of the loop, in order. -/
inductive Event
  | cordon
  | uncordon
  | deleteAttempt (id : String) (o : Outcome)
  | sleep (d : ℚ)
deriving Repr, DecidableEq

/-- The configuration of the engine: whether `NODE_NAME` is set, and the
`IMAGE_GC_DELAY` / `IMAGE_GC_THRESHOLD_LOW` / `IMAGE_GC_THRESHOLD_HIGH`
values. -/
structure Config where
  node : Bool
  delay : ℚ
  gc_low : ℚ
  gc_high : ℚ
deriving Repr, DecidableEq

/-- Result of the inner `while images and get_used_percent(...) > gc_low`
loop: trace of events, the `deleted` success counter, the images left in
the candidate list, the number of usage samples consumed, and whether an
unclassified error propagated (`raise`). -/
structure LoopResult where
  events : List Event
  deleted : ℕ
  remaining : List Image
  k : ℕ
  aborted : Bool
deriving Repr, DecidableEq

/-- Embedding of the inner deletion loop of `main`.

```
while images and get_used_percent(path_to_check) > gc_low:
    if node: cordon(kube, node)
    image = images.pop(0)
    try:
        client.images.remove(image=image.id, force=True)
        time.sleep(delay)
    except APIError 409: skip
    except APIError 404: skip
    except ReadTimeout: time.sleep(max(delay, 30))
    else: deleted += 1
```

`usage n` is the value of the `n`-th `get_used_percent` call made by the
loop condition (the condition short-circuits: no sample is taken once
`images` is empty). -/
def runLoop (cfg : Config) (outcome : Image → Outcome) (usage : ℕ → ℚ) :
    List Image → ℕ → LoopResult
  | [], k => { events := [], deleted := 0, remaining := [], k := k, aborted := false }
  | img :: rest, k =>
    if usage k ≤ cfg.gc_low then
      { events := [], deleted := 0, remaining := img :: rest, k := k + 1, aborted := false }
    else
      let cord : List Event := if cfg.node then [.cordon] else []
      let att : Event := .deleteAttempt img.id (outcome img)
      match outcome img with
      | .fatal =>
          { events := cord ++ [att], deleted := 0, remaining := rest,
            k := k + 1, aborted := true }
      | .success =>
          let r := runLoop cfg outcome usage rest (k + 1)
          { events := cord ++ [att, .sleep cfg.delay] ++ r.events,
            deleted := r.deleted + 1, remaining := r.remaining,
            k := r.k, aborted := r.aborted }
      | .timeout =>
          let r := runLoop cfg outcome usage rest (k + 1)
          { events := cord ++ [att, .sleep (max cfg.delay 30)] ++ r.events,
            deleted := r.deleted, remaining := r.remaining,
            k := r.k, aborted := r.aborted }
      | .conflict =>
          let r := runLoop cfg outcome usage rest (k + 1)
          { events := cord ++ [att] ++ r.events,
            deleted := r.deleted, remaining := r.remaining,
            k := r.k, aborted := r.aborted }
      | .notFound =>
          let r := runLoop cfg outcome usage rest (k + 1)
          { events := cord ++ [att] ++ r.events,
            deleted := r.deleted, remaining := r.remaining,
            k := r.k, aborted := r.aborted }

/-- Result of one eviction pass (the `else` branch of the outer loop,
entered when the sampled usage is not below `gc_high`). -/
structure PassResult where
  events : List Event
  deleted : ℕ
  imagesBefore : ℕ
  remaining : List Image
  imagesDeletedReported : ℕ
  aborted : Bool
deriving Repr, DecidableEq

/-- Embedding of one eviction pass of `main`: re-list (and sort) images,
cordon if a node is configured, run the deletion loop, then — unless an
unclassified error propagated — uncordon if a node is configured and log
`images_before - len(images)` as the number of deleted images. -/
def runPass (cfg : Config) (outcome : Image → Outcome) (usage : ℕ → ℚ)
    (snapshot : List Image) : PassResult :=
  let images := get_docker_images snapshot
  let images_before := images.length
  let entry : List Event := if cfg.node then [.cordon] else []
  let r := runLoop cfg outcome usage images 0
  if r.aborted then
    { events := entry ++ r.events, deleted := r.deleted,
      imagesBefore := images_before, remaining := r.remaining,
      imagesDeletedReported := images_before - r.remaining.length,
      aborted := true }
  else
    { events := entry ++ r.events ++ (if cfg.node then [.uncordon] else []),
      deleted := r.deleted,
      imagesBefore := images_before, remaining := r.remaining,
      imagesDeletedReported := images_before - r.remaining.length,
      aborted := false }

/-- Result of one iteration of the outer polling loop. -/
inductive TickResult
  | idle
  | passRun (r : PassResult)
deriving Repr, DecidableEq

/-- Embedding of one iteration of the outer `while True` loop of `main`:
sample the usage `u`; if `u < gc_high` do nothing, else run an eviction
pass. -/
def tick (cfg : Config) (outcome : Image → Outcome) (usage : ℕ → ℚ)
    (snapshot : List Image) (u : ℚ) : TickResult :=
  if u < cfg.gc_high then .idle
  else .passRun (runPass cfg outcome usage snapshot)

/-! ## Event counting helpers -/

/-- Number of cordon calls in a trace. -/
def cordonCount (es : List Event) : ℕ :=
  (es.filter fun e => decide (e = .cordon)).length

/-- Number of uncordon calls in a trace. -/
def uncordonCount (es : List Event) : ℕ :=
  (es.filter fun e => decide (e = .uncordon)).length

/-- Whether an event is a delete attempt. -/
def isAttempt : Event → Bool
  | .deleteAttempt _ _ => true
  | _ => false

/-- Whether an event is a successful delete attempt. -/
def isSuccessAttempt : Event → Bool
  | .deleteAttempt _ .success => true
  | _ => false

/-- Number of delete attempts in a trace. -/
def attemptCount (es : List Event) : ℕ := (es.filter isAttempt).length

/-- Number of successful delete attempts in a trace. -/
def successCount (es : List Event) : ℕ := (es.filter isSuccessAttempt).length

/-- Erase cordon/uncordon events from a trace, leaving the pure eviction
behaviour (delete attempts and sleeps). -/
def eraseNodeEvents (es : List Event) : List Event :=
  es.filter fun e => !(decide (e = .cordon) || decide (e = .uncordon))

/-! ## Helper lemmas -/

theorem keyLe_total (a b : Bool × ℕ) : keyLe a b ∨ keyLe b a := by
  rcases a with ⟨x, m⟩
  rcases b with ⟨y, n⟩
  cases x <;> cases y <;> simp [keyLe] <;> omega

theorem keyLe_trans {a b c : Bool × ℕ} (h1 : keyLe a b) (h2 : keyLe b c) :
    keyLe a c := by
  rcases a with ⟨x, m⟩
  rcases b with ⟨y, n⟩
  rcases c with ⟨z, p⟩
  rcases h1 with ⟨hx, hy⟩ | ⟨hxy, hmn⟩ <;> rcases h2 with ⟨hy2, hz⟩ | ⟨hyz, hnp⟩ <;>
    simp_all [keyLe] <;> omega

instance : IsTotal Image imageRel :=
  ⟨fun a b => keyLe_total (image_key b) (image_key a)⟩

instance : IsTrans Image imageRel :=
  ⟨fun _ _ _ h1 h2 => keyLe_trans h2 h1⟩

/-! ## Claims about the usage sampler -/

/-- C7: for every statvfs result with positive block and inode totals and
available counts not exceeding the totals, `get_used_percent` returns
exactly `100 * (1 - min(blocksAvailableFraction, inodesAvailableFraction))`,
this value lies in `[0, 100]`, and the concrete input with blocks 40%
available and inodes 90% available yields 60. -/
theorem get_used_percent_spec (s : StatVFS) (hb : 0 < s.f_blocks)
    (hf : 0 < s.f_files) (hba : s.f_bavail ≤ s.f_blocks)
    (hfa : s.f_favail ≤ s.f_files) :
    (∃ q : ℚ, get_used_percent s = some q ∧
      q = 100 * (1 - min ((s.f_bavail : ℚ) / (s.f_blocks : ℚ))
        ((s.f_favail : ℚ) / (s.f_files : ℚ))) ∧
      0 ≤ q ∧ q ≤ 100) ∧
    get_used_percent ⟨40, 100, 90, 100⟩ = some 60 := by
  refine ⟨?_, by norm_num [get_used_percent, min_def]⟩
  · have hcond : ¬ (s.f_files = 0 ∨ s.f_blocks = 0) := by
      rintro (h | h) <;> omega
    refine ⟨100 * (1 - min ((s.f_bavail : ℚ) / (s.f_blocks : ℚ))
      ((s.f_favail : ℚ) / (s.f_files : ℚ))), ?_, rfl, ?_, ?_⟩
    · simp only [get_used_percent, if_neg hcond]
    · have h1 : (s.f_bavail : ℚ) / (s.f_blocks : ℚ) ≤ 1 := by
        rw [div_le_one (by exact_mod_cast hb)]
        exact_mod_cast hba
      have h2 : min ((s.f_bavail : ℚ) / (s.f_blocks : ℚ))
          ((s.f_favail : ℚ) / (s.f_files : ℚ)) ≤ 1 :=
        le_trans (min_le_left _ _) h1
      nlinarith
    · have h1 : (0 : ℚ) ≤ (s.f_bavail : ℚ) / (s.f_blocks : ℚ) :=
        div_nonneg (by positivity) (by positivity)
      have h2 : (0 : ℚ) ≤ (s.f_favail : ℚ) / (s.f_files : ℚ) :=
        div_nonneg (by positivity) (by positivity)
      have h3 : (0 : ℚ) ≤ min ((s.f_bavail : ℚ) / (s.f_blocks : ℚ))
          ((s.f_favail : ℚ) / (s.f_files : ℚ)) := le_min h1 h2
      nlinarith

/-- Witness for `get_used_percent_spec` at the concrete statvfs result
with 40 of 100 blocks and 90 of 100 inodes available. -/
theorem get_used_percent_spec_witness :
    (∃ q : ℚ, get_used_percent ⟨40, 100, 90, 100⟩ = some q ∧
      q = 100 * (1 - min (((40 : ℕ) : ℚ) / ((100 : ℕ) : ℚ))
        (((90 : ℕ) : ℚ) / ((100 : ℕ) : ℚ))) ∧
      0 ≤ q ∧ q ≤ 100) ∧
    get_used_percent ⟨40, 100, 90, 100⟩ = some 60 :=
  get_used_percent_spec ⟨40, 100, 90, 100⟩ (by decide) (by decide) (by decide)
    (by decide)

/-- C10: `get_used_percent` produces a value exactly when both the total
block count and the total inode count are nonzero; with `f_files = 0` or
`f_blocks = 0` the Python divisions raise instead of returning a
percentage, so the embedding returns `none` there. -/
theorem get_used_percent_total_iff :
    (∀ s : StatVFS, (get_used_percent s).isSome ↔
      (s.f_blocks ≠ 0 ∧ s.f_files ≠ 0)) ∧
    get_used_percent ⟨10, 10, 10, 0⟩ = none ∧
    get_used_percent ⟨10, 0, 10, 10⟩ = none := by
  refine ⟨fun s => ?_, by decide, by decide⟩
  by_cases h : s.f_files = 0 ∨ s.f_blocks = 0
  · simp only [get_used_percent, if_pos h]
    simp only [Option.isSome_none, Bool.false_eq_true, false_iff]
    tauto
  · simp only [get_used_percent, if_neg h]
    simp only [Option.isSome_some, true_iff]
    tauto

/-! ## Claim about the deletion-priority ordering -/

/-- C8: the deletion-priority ordering places every untagged image before
every tagged image regardless of size and orders images within the same
tagged/untagged class by descending size; the concrete three-image input
of the spec sorts as stated there. -/
theorem get_docker_images_ordering :
    (∀ l : List Image, (get_docker_images l).Pairwise (fun a b =>
      (a.tags = [] ∨ b.tags ≠ []) ∧
      ((a.tags = [] ↔ b.tags = []) → b.size ≤ a.size))) ∧
    get_docker_images [⟨"i1", [], 5⟩, ⟨"i2", ["a"], 100⟩, ⟨"i3", [], 50⟩] =
      [⟨"i3", [], 50⟩, ⟨"i1", [], 5⟩, ⟨"i2", ["a"], 100⟩] := by
  constructor
  · intro l
    have h : (get_docker_images l).Pairwise imageRel :=
      List.sorted_insertionSort imageRel l
    refine h.imp ?_
    intro a b hab
    rcases hab with ⟨h1, h2⟩ | ⟨h1, h2⟩
    · constructor
      · left
        simpa [image_key, List.isEmpty_iff] using h2
      · intro hiff
        have hb : b.tags ≠ [] := by
          simpa [image_key, List.isEmpty_eq_false] using h1
        have ha : a.tags = [] := by
          simpa [image_key, List.isEmpty_iff] using h2
        exact absurd (hiff.mp ha) hb
    · constructor
      · by_cases hb : b.tags = []
        · left
          have : (image_key b).1 = true := by
            simp [image_key, hb]
          rw [this] at h1
          simpa [image_key, List.isEmpty_iff] using h1.symm
        · right
          exact hb
      · intro _
        simpa [image_key] using h2
  · decide

/-! ## Counting lemmas for event traces -/

theorem attemptCount_append (a b : List Event) :
    attemptCount (a ++ b) = attemptCount a + attemptCount b := by
  simp [attemptCount]

theorem successCount_append (a b : List Event) :
    successCount (a ++ b) = successCount a + successCount b := by
  simp [successCount]

theorem cordonCount_append (a b : List Event) :
    cordonCount (a ++ b) = cordonCount a + cordonCount b := by
  simp [cordonCount]

theorem uncordonCount_append (a b : List Event) :
    uncordonCount (a ++ b) = uncordonCount a + uncordonCount b := by
  simp [uncordonCount]

theorem eraseNodeEvents_append (a b : List Event) :
    eraseNodeEvents (a ++ b) = eraseNodeEvents a ++ eraseNodeEvents b := by
  simp [eraseNodeEvents]

theorem attemptCount_entry (c : Bool) :
    attemptCount (if c then [Event.cordon] else []) = 0 := by
  cases c <;> simp [attemptCount, isAttempt]

theorem successCount_entry (c : Bool) :
    successCount (if c then [Event.cordon] else []) = 0 := by
  cases c <;> simp [successCount, isSuccessAttempt]

theorem attemptCount_exit (c : Bool) :
    attemptCount (if c then [Event.uncordon] else []) = 0 := by
  cases c <;> simp [attemptCount, isAttempt]

theorem successCount_exit (c : Bool) :
    successCount (if c then [Event.uncordon] else []) = 0 := by
  cases c <;> simp [successCount, isSuccessAttempt]

/-- Structural invariant of the deletion loop: the number of images popped
from the candidate list equals the number of delete-attempt events, and
the `deleted` counter equals the number of attempts whose outcome was
success. -/
theorem runLoop_counts (cfg : Config) (outcome : Image → Outcome)
    (usage : ℕ → ℚ) (l : List Image) (k : ℕ) :
    l.length = attemptCount (runLoop cfg outcome usage l k).events +
      (runLoop cfg outcome usage l k).remaining.length ∧
    (runLoop cfg outcome usage l k).deleted =
      successCount (runLoop cfg outcome usage l k).events := by
  induction l generalizing k with
  | nil => simp [runLoop, attemptCount, successCount]
  | cons img rest ih =>
    by_cases hu : usage k ≤ cfg.gc_low
    · simp [runLoop, hu, attemptCount, successCount]
    · have ihk := ih (k + 1)
      simp only [attemptCount, successCount] at ihk
      rcases houtcome : outcome img with _ | _ | _ | _ | _ <;>
        rcases hn : cfg.node <;>
        simp [runLoop, hu, houtcome, hn, attemptCount, successCount,
          isAttempt, isSuccessAttempt] <;>
        omega

/-! ## Claims about the eviction pass -/

/-- C1 counterexample: with a configured node, sampled usage 85 at or
above the high threshold 80, and an empty image inventory, the pass still
issues one cordon and one uncordon call — the claim that no cordon or
uncordon call is issued on an empty inventory is false on the code. -/
theorem emptyPass_cordons_counterexample :
    tick ⟨true, 1, 60, 80⟩ (fun _ => Outcome.success) (fun _ => 85) [] 85 =
      TickResult.passRun
        { events := [Event.cordon, Event.uncordon], deleted := 0,
          imagesBefore := 0, remaining := [], imagesDeletedReported := 0,
          aborted := false } ∧
    ¬ ((85 : ℚ) < (80 : ℚ)) ∧
    cordonCount [Event.cordon, Event.uncordon] ≠ 0 ∧
    uncordonCount [Event.cordon, Event.uncordon] ≠ 0 := by
  refine ⟨by decide, by norm_num, by decide, by decide⟩

/-- C1 amended: an eviction pass over an empty inventory performs no
delete attempt, consumes no usage sample, reports zero deletions and does
not abort; it issues exactly one cordon and one uncordon call when a node
identity is configured, and none when it is not. -/
theorem runPass_empty (cfg : Config) (outcome : Image → Outcome)
    (usage : ℕ → ℚ) :
    (runPass cfg outcome usage []).deleted = 0 ∧
    (runPass cfg outcome usage []).imagesDeletedReported = 0 ∧
    (runPass cfg outcome usage []).aborted = false ∧
    attemptCount (runPass cfg outcome usage []).events = 0 ∧
    cordonCount (runPass cfg outcome usage []).events =
      (if cfg.node then 1 else 0) ∧
    uncordonCount (runPass cfg outcome usage []).events =
      (if cfg.node then 1 else 0) := by
  rcases hn : cfg.node <;>
    simp [runPass, runLoop, get_docker_images, hn, attemptCount, cordonCount,
      uncordonCount, isAttempt]

/-- C2 counterexample: a pass over one image whose deletion fails with a
Conflict (409) reports one deleted image in its summary although the
success counter is zero — the claim that the emitted count equals the
number of confirmed successes is false on the code, which logs
`images_before - len(images)`, the number of candidates popped. -/
theorem reported_count_counterexample :
    (runPass ⟨false, 1, 60, 80⟩ (fun _ => Outcome.conflict) (fun _ => 85)
      [⟨"x", [], 10⟩]).deleted = 0 ∧
    (runPass ⟨false, 1, 60, 80⟩ (fun _ => Outcome.conflict) (fun _ => 85)
      [⟨"x", [], 10⟩]).imagesDeletedReported = 1 ∧
    (runPass ⟨false, 1, 60, 80⟩ (fun _ => Outcome.conflict) (fun _ => 85)
      [⟨"x", [], 10⟩]).aborted = false := by
  refine ⟨by decide, by decide, by decide⟩

/-- C2 amended: the images-deleted count emitted in the pass summary is
`images_before - len(images)`, the number of candidates popped, i.e. the
number of delete attempts of the pass — Conflict, NotFound and Timeout
outcomes do increase it; the separate `deleted` counter is incremented
only on confirmed success but is not the number emitted. -/
theorem runPass_reported_counts (cfg : Config) (outcome : Image → Outcome)
    (usage : ℕ → ℚ) (snapshot : List Image) :
    (runPass cfg outcome usage snapshot).imagesDeletedReported =
      attemptCount (runPass cfg outcome usage snapshot).events ∧
    (runPass cfg outcome usage snapshot).deleted =
      successCount (runPass cfg outcome usage snapshot).events := by
  have h := runLoop_counts cfg outcome usage (get_docker_images snapshot) 0
  rcases h with ⟨h1, h2⟩
  by_cases ha : (runLoop cfg outcome usage (get_docker_images snapshot) 0).aborted
  · simp only [runPass, if_pos ha]
    constructor
    · simp only [attemptCount_append, attemptCount_entry]
      omega
    · simp only [successCount_append, successCount_entry]
      omega
  · simp only [runPass, if_neg ha]
    constructor
    · simp only [attemptCount_append, attemptCount_entry, attemptCount_exit]
      omega
    · simp only [successCount_append, successCount_entry, successCount_exit]
      omega

/-- Structural invariant of the deletion loop: the loop itself never
issues an uncordon call (uncordon happens only after the loop, in the
pass epilogue). -/
theorem runLoop_no_uncordon (cfg : Config) (outcome : Image → Outcome)
    (usage : ℕ → ℚ) (l : List Image) (k : ℕ) :
    uncordonCount (runLoop cfg outcome usage l k).events = 0 := by
  induction l generalizing k with
  | nil => simp [runLoop, uncordonCount]
  | cons img rest ih =>
    by_cases hu : usage k ≤ cfg.gc_low
    · simp [runLoop, hu, uncordonCount]
    · have ihk := ih (k + 1)
      rcases houtcome : outcome img with _ | _ | _ | _ | _ <;>
        rcases hn : cfg.node <;>
        simp only [runLoop, if_neg hu, houtcome, hn, uncordonCount_append,
          ihk] <;>
        simp [uncordonCount]

/-- Exit characterization of the deletion loop: when it terminates without
an unclassified error, either the candidate list was exhausted, or the
last usage sample it took was at or below the low threshold. -/
theorem runLoop_exit_characterization (cfg : Config)
    (outcome : Image → Outcome) (usage : ℕ → ℚ) (l : List Image) (k : ℕ) :
    (runLoop cfg outcome usage l k).aborted = false →
    (runLoop cfg outcome usage l k).remaining = [] ∨
    (k < (runLoop cfg outcome usage l k).k ∧
      usage ((runLoop cfg outcome usage l k).k - 1) ≤ cfg.gc_low) := by
  induction l generalizing k with
  | nil => intro _; left; simp [runLoop]
  | cons img rest ih =>
    intro hab
    by_cases hu : usage k ≤ cfg.gc_low
    · right
      simp [runLoop, hu]
    · have ihk := ih (k + 1)
      rcases houtcome : outcome img with _ | _ | _ | _ | _
      · simp only [runLoop, if_neg hu, houtcome] at hab ⊢
        rcases ihk hab with h | ⟨h1, h2⟩
        · left; exact h
        · right; exact ⟨by omega, h2⟩
      · simp only [runLoop, if_neg hu, houtcome] at hab ⊢
        rcases ihk hab with h | ⟨h1, h2⟩
        · left; exact h
        · right; exact ⟨by omega, h2⟩
      · simp only [runLoop, if_neg hu, houtcome] at hab ⊢
        rcases ihk hab with h | ⟨h1, h2⟩
        · left; exact h
        · right; exact ⟨by omega, h2⟩
      · simp only [runLoop, if_neg hu, houtcome] at hab ⊢
        rcases ihk hab with h | ⟨h1, h2⟩
        · left; exact h
        · right; exact ⟨by omega, h2⟩
      · simp only [runLoop, if_neg hu, houtcome] at hab
        exact absurd hab (by simp)

/-- C3 counterexample: with thresholds low = 60, high = 80, one candidate
image and every usage sample exactly 60 (equal to the low threshold), the
pass ends its deletion loop with the candidate still present and zero
delete attempts, although no sample was strictly below the low threshold
and the candidates were not exhausted — the code exits on `usage ≤ low`,
not only on `usage < low`. -/
theorem hysteresis_boundary_counterexample :
    (runPass ⟨false, 1, 60, 80⟩ (fun _ => Outcome.success) (fun _ => 60)
      [⟨"x", [], 10⟩]).aborted = false ∧
    (runPass ⟨false, 1, 60, 80⟩ (fun _ => Outcome.success) (fun _ => 60)
      [⟨"x", [], 10⟩]).remaining = [⟨"x", [], 10⟩] ∧
    attemptCount (runPass ⟨false, 1, 60, 80⟩ (fun _ => Outcome.success)
      (fun _ => 60) [⟨"x", [], 10⟩]).events = 0 ∧
    ¬ ((60 : ℚ) < (60 : ℚ)) := by
  refine ⟨by decide, by decide, by decide, by norm_num⟩

/-- C3 amended: the engine enters an eviction pass exactly when the
sampled usage is at or above the high threshold; once looping it stops
only when the candidate list is exhausted or a usage sample is at or
below (not necessarily strictly below) the low threshold, and it performs
another delete attempt whenever candidates remain and the sample is
strictly above the low threshold — in particular a sample that merely
dips below the high threshold while staying strictly above the low one
does not stop the pass. -/
theorem hysteresis (cfg : Config) (outcome : Image → Outcome)
    (usage : ℕ → ℚ) (snapshot rest : List Image) (l : List Image)
    (img : Image) (u : ℚ) (k : ℕ) :
    (tick cfg outcome usage snapshot u = TickResult.idle ↔ u < cfg.gc_high) ∧
    ((runLoop cfg outcome usage l k).aborted = false →
      (runLoop cfg outcome usage l k).remaining = [] ∨
      (k < (runLoop cfg outcome usage l k).k ∧
        usage ((runLoop cfg outcome usage l k).k - 1) ≤ cfg.gc_low)) ∧
    (cfg.gc_low < usage k →
      1 ≤ attemptCount (runLoop cfg outcome usage (img :: rest) k).events) := by
  refine ⟨?_, runLoop_exit_characterization cfg outcome usage l k, ?_⟩
  · by_cases h : u < cfg.gc_high
    · simp [tick, h]
    · simp [tick, h]
  · intro h
    have hu : ¬ (usage k ≤ cfg.gc_low) := not_le.mpr h
    rcases houtcome : outcome img with _ | _ | _ | _ | _ <;>
      rcases hn : cfg.node <;>
      simp [runLoop, hu, houtcome, hn, attemptCount, isAttempt]

/-- Witness for `hysteresis`: with thresholds 60/80 and a usage sample of
85, the loop over one candidate performs at least one delete attempt. -/
theorem hysteresis_witness :
    1 ≤ attemptCount (runLoop ⟨false, 1, 60, 80⟩ (fun _ => Outcome.success)
      (fun _ => (85 : ℚ)) [⟨"x", [], 10⟩] 0).events :=
  (hysteresis ⟨false, 1, 60, 80⟩ (fun _ => Outcome.success)
    (fun _ => (85 : ℚ)) [] [] [] ⟨"x", [], 10⟩ 85 0).2.2 (by norm_num)

/-- C4 counterexample: with a configured node and a single candidate
whose deletion fails with an unclassified error, the pass aborts after
two cordon calls and issues no uncordon call — the node is left
unschedulable, so the claim that uncordon happens on every exit,
including a fatal deletion failure, is false on the code. -/
theorem fatal_skips_uncordon_counterexample :
    (runPass ⟨true, 1, 60, 80⟩ (fun _ => Outcome.fatal) (fun _ => 85)
      [⟨"x", [], 10⟩]).aborted = true ∧
    uncordonCount (runPass ⟨true, 1, 60, 80⟩ (fun _ => Outcome.fatal)
      (fun _ => 85) [⟨"x", [], 10⟩]).events = 0 ∧
    cordonCount (runPass ⟨true, 1, 60, 80⟩ (fun _ => Outcome.fatal)
      (fun _ => 85) [⟨"x", [], 10⟩]).events = 2 := by
  refine ⟨by decide, by decide, by decide⟩

/-- C4 amended: when a node is configured, every pass whose deletion loop
exits normally (usage at or below the low threshold, or candidates
exhausted) issues exactly one uncordon call; but when a deletion attempt
fails with an unclassified error the exception propagates and no uncordon
call is issued — the node can be left unschedulable. -/
theorem uncordon_on_exit (cfg : Config) (outcome : Image → Outcome)
    (usage : ℕ → ℚ) (snapshot : List Image) (hnode : cfg.node = true) :
    ((runPass cfg outcome usage snapshot).aborted = false →
      uncordonCount (runPass cfg outcome usage snapshot).events = 1) ∧
    ((runPass cfg outcome usage snapshot).aborted = true →
      uncordonCount (runPass cfg outcome usage snapshot).events = 0) := by
  have h0 := runLoop_no_uncordon cfg outcome usage (get_docker_images snapshot) 0
  have he : uncordonCount (if cfg.node then [Event.cordon] else []) = 0 := by
    cases cfg.node <;> simp [uncordonCount]
  have hx : uncordonCount (if cfg.node then [Event.uncordon] else []) = 1 := by
    rw [hnode]
    simp [uncordonCount]
  by_cases ha : (runLoop cfg outcome usage (get_docker_images snapshot) 0).aborted = true
  · constructor
    · intro hfalse
      simp only [runPass, if_pos ha] at hfalse
      exact absurd hfalse (by simp)
    · intro _
      simp only [runPass, if_pos ha, uncordonCount_append]
      omega
  · constructor
    · intro _
      simp only [runPass, if_neg ha, uncordonCount_append]
      omega
    · intro htrue
      simp only [runPass, if_neg ha] at htrue
      exact absurd htrue (by simp)

/-- Witness for `uncordon_on_exit`: a configured node, one successfully
deleted candidate and usage samples 85 then 55 give a non-aborted pass
with exactly one uncordon call. -/
theorem uncordon_on_exit_witness :
    (runPass ⟨true, 1, 60, 80⟩ (fun _ => Outcome.success)
      (fun n => if n = 0 then (85 : ℚ) else 55) [⟨"x", [], 10⟩]).aborted
        = false ∧
    uncordonCount (runPass ⟨true, 1, 60, 80⟩ (fun _ => Outcome.success)
      (fun n => if n = 0 then (85 : ℚ) else 55) [⟨"x", [], 10⟩]).events = 1 :=
  ⟨by decide,
   (uncordon_on_exit ⟨true, 1, 60, 80⟩ (fun _ => Outcome.success)
     (fun n => if n = 0 then (85 : ℚ) else 55) [⟨"x", [], 10⟩] rfl).1
     (by decide)⟩

/-- Structural invariant of the deletion loop: if no candidate has an
unclassified (fatal) outcome, the loop never aborts. -/
theorem runLoop_no_fatal_no_abort (cfg : Config) (outcome : Image → Outcome)
    (usage : ℕ → ℚ) (l : List Image) (k : ℕ)
    (h : ∀ i ∈ l, outcome i ≠ Outcome.fatal) :
    (runLoop cfg outcome usage l k).aborted = false := by
  induction l generalizing k with
  | nil => simp [runLoop]
  | cons img rest ih =>
    by_cases hu : usage k ≤ cfg.gc_low
    · simp [runLoop, hu]
    · have hr : ∀ i ∈ rest, outcome i ≠ Outcome.fatal := fun i hi =>
        h i (List.mem_cons_of_mem _ hi)
      have himg : outcome img ≠ Outcome.fatal := h img (List.mem_cons_self _ _)
      rcases houtcome : outcome img with _ | _ | _ | _ | _
      · simp only [runLoop, if_neg hu, houtcome]
        exact ih (k + 1) hr
      · simp only [runLoop, if_neg hu, houtcome]
        exact ih (k + 1) hr
      · simp only [runLoop, if_neg hu, houtcome]
        exact ih (k + 1) hr
      · simp only [runLoop, if_neg hu, houtcome]
        exact ih (k + 1) hr
      · exact absurd houtcome himg

/-- C5: a Conflict (409) outcome makes the loop continue on the remaining
candidates with the popped image dropped and the success counter
untouched; a NotFound (404) outcome behaves the same way; an unclassified
outcome stops the loop at once with the abort flag set (the exception
propagates and terminates the process); and a loop over candidates none
of which has an unclassified outcome never aborts. -/
theorem deletion_error_classification (cfg : Config)
    (outcome : Image → Outcome) (usage : ℕ → ℚ) (l rest : List Image)
    (img : Image) (k : ℕ) :
    ((∀ i ∈ l, outcome i ≠ Outcome.fatal) →
      (runLoop cfg outcome usage l k).aborted = false) ∧
    (cfg.gc_low < usage k → outcome img = Outcome.conflict →
      runLoop cfg outcome usage (img :: rest) k =
        { events := (if cfg.node then [Event.cordon] else []) ++
            [Event.deleteAttempt img.id Outcome.conflict] ++
            (runLoop cfg outcome usage rest (k + 1)).events,
          deleted := (runLoop cfg outcome usage rest (k + 1)).deleted,
          remaining := (runLoop cfg outcome usage rest (k + 1)).remaining,
          k := (runLoop cfg outcome usage rest (k + 1)).k,
          aborted := (runLoop cfg outcome usage rest (k + 1)).aborted }) ∧
    (cfg.gc_low < usage k → outcome img = Outcome.notFound →
      runLoop cfg outcome usage (img :: rest) k =
        { events := (if cfg.node then [Event.cordon] else []) ++
            [Event.deleteAttempt img.id Outcome.notFound] ++
            (runLoop cfg outcome usage rest (k + 1)).events,
          deleted := (runLoop cfg outcome usage rest (k + 1)).deleted,
          remaining := (runLoop cfg outcome usage rest (k + 1)).remaining,
          k := (runLoop cfg outcome usage rest (k + 1)).k,
          aborted := (runLoop cfg outcome usage rest (k + 1)).aborted }) ∧
    (cfg.gc_low < usage k → outcome img = Outcome.fatal →
      runLoop cfg outcome usage (img :: rest) k =
        { events := (if cfg.node then [Event.cordon] else []) ++
            [Event.deleteAttempt img.id Outcome.fatal],
          deleted := 0, remaining := rest, k := k + 1, aborted := true }) := by
  refine ⟨fun h => runLoop_no_fatal_no_abort cfg outcome usage l k h, ?_, ?_, ?_⟩
  · intro h1 h2
    have hu : ¬ (usage k ≤ cfg.gc_low) := not_le.mpr h1
    simp only [runLoop, if_neg hu, h2]
  · intro h1 h2
    have hu : ¬ (usage k ≤ cfg.gc_low) := not_le.mpr h1
    simp only [runLoop, if_neg hu, h2]
  · intro h1 h2
    have hu : ¬ (usage k ≤ cfg.gc_low) := not_le.mpr h1
    simp only [runLoop, if_neg hu, h2]

/-- Witness for `deletion_error_classification`: a loop over one
candidate whose deletion outcome is Conflict ends without aborting. -/
theorem deletion_error_classification_witness :
    (runLoop ⟨false, 1, 60, 80⟩ (fun _ => Outcome.conflict)
      (fun _ => (85 : ℚ)) [⟨"x", [], 10⟩] 0).aborted = false :=
  (deletion_error_classification ⟨false, 1, 60, 80⟩ (fun _ => Outcome.conflict)
    (fun _ => (85 : ℚ)) [⟨"x", [], 10⟩] [] ⟨"x", [], 10⟩ 0).1
    (fun i _ => by decide)

/-- C6: a Timeout outcome is followed directly by a sleep of
`max(delay, 30)` seconds — at least the configured inter-deletion delay
and at least 30 seconds — before the loop continues with the next
candidate, and the success counter is not incremented for it. -/
theorem timeout_backoff (cfg : Config) (outcome : Image → Outcome)
    (usage : ℕ → ℚ) (rest : List Image) (img : Image) (k : ℕ)
    (h1 : cfg.gc_low < usage k) (h2 : outcome img = Outcome.timeout) :
    runLoop cfg outcome usage (img :: rest) k =
      { events := (if cfg.node then [Event.cordon] else []) ++
          [Event.deleteAttempt img.id Outcome.timeout,
            Event.sleep (max cfg.delay 30)] ++
          (runLoop cfg outcome usage rest (k + 1)).events,
        deleted := (runLoop cfg outcome usage rest (k + 1)).deleted,
        remaining := (runLoop cfg outcome usage rest (k + 1)).remaining,
        k := (runLoop cfg outcome usage rest (k + 1)).k,
        aborted := (runLoop cfg outcome usage rest (k + 1)).aborted } ∧
    cfg.delay ≤ max cfg.delay 30 ∧ (30 : ℚ) ≤ max cfg.delay 30 := by
  refine ⟨?_, le_max_left _ _, le_max_right _ _⟩
  have hu : ¬ (usage k ≤ cfg.gc_low) := not_le.mpr h1
  simp only [runLoop, if_neg hu, h2]

/-- Witness for `timeout_backoff`: with delay 1 and a single candidate
timing out at usage 85, the trace is the timeout attempt followed by a
sleep of `max 1 30`, with a success count of zero. -/
theorem timeout_backoff_witness :
    runLoop ⟨false, 1, 60, 80⟩ (fun _ => Outcome.timeout) (fun _ => (85 : ℚ))
        [⟨"x", [], 10⟩] 0 =
      { events := [Event.deleteAttempt "x" Outcome.timeout,
          Event.sleep (max (1 : ℚ) 30)],
        deleted := 0, remaining := [], k := 1, aborted := false } ∧
    (1 : ℚ) ≤ max (1 : ℚ) 30 ∧ (30 : ℚ) ≤ max (1 : ℚ) 30 :=
  timeout_backoff ⟨false, 1, 60, 80⟩ (fun _ => Outcome.timeout)
    (fun _ => (85 : ℚ)) [] ⟨"x", [], 10⟩ 0 (by norm_num) rfl

/-! ## Erasure lemmas for the node-setting noninterference claim -/

theorem eraseNodeEvents_nil : eraseNodeEvents [] = [] := rfl

theorem eraseNodeEvents_cordon_cons (es : List Event) :
    eraseNodeEvents (Event.cordon :: es) = eraseNodeEvents es := by
  simp [eraseNodeEvents]

theorem eraseNodeEvents_uncordon_cons (es : List Event) :
    eraseNodeEvents (Event.uncordon :: es) = eraseNodeEvents es := by
  simp [eraseNodeEvents]

theorem eraseNodeEvents_attempt_cons (i : String) (o : Outcome)
    (es : List Event) :
    eraseNodeEvents (Event.deleteAttempt i o :: es) =
      Event.deleteAttempt i o :: eraseNodeEvents es := by
  simp [eraseNodeEvents]

theorem eraseNodeEvents_sleep_cons (d : ℚ) (es : List Event) :
    eraseNodeEvents (Event.sleep d :: es) =
      Event.sleep d :: eraseNodeEvents es := by
  simp [eraseNodeEvents]

theorem cordonCount_nil : cordonCount [] = 0 := rfl

theorem cordonCount_attempt_cons (i : String) (o : Outcome)
    (es : List Event) :
    cordonCount (Event.deleteAttempt i o :: es) = cordonCount es := by
  simp [cordonCount]

theorem cordonCount_sleep_cons (d : ℚ) (es : List Event) :
    cordonCount (Event.sleep d :: es) = cordonCount es := by
  simp [cordonCount]

/-- Erasing cordon/uncordon events from the trace of a configured-node
deletion loop yields exactly the trace of the loop with no node
configured, and all other loop results (success counter, leftover
candidates, samples consumed, abort flag) agree; the no-node loop issues
no cordon call at all. -/
theorem runLoop_node_erasure (delay low high : ℚ)
    (outcome : Image → Outcome) (usage : ℕ → ℚ) (l : List Image) (k : ℕ) :
    eraseNodeEvents (runLoop ⟨true, delay, low, high⟩ outcome usage l k).events =
      (runLoop ⟨false, delay, low, high⟩ outcome usage l k).events ∧
    (runLoop ⟨true, delay, low, high⟩ outcome usage l k).deleted =
      (runLoop ⟨false, delay, low, high⟩ outcome usage l k).deleted ∧
    (runLoop ⟨true, delay, low, high⟩ outcome usage l k).remaining =
      (runLoop ⟨false, delay, low, high⟩ outcome usage l k).remaining ∧
    (runLoop ⟨true, delay, low, high⟩ outcome usage l k).k =
      (runLoop ⟨false, delay, low, high⟩ outcome usage l k).k ∧
    (runLoop ⟨true, delay, low, high⟩ outcome usage l k).aborted =
      (runLoop ⟨false, delay, low, high⟩ outcome usage l k).aborted ∧
    cordonCount (runLoop ⟨false, delay, low, high⟩ outcome usage l k).events = 0 := by
  induction l generalizing k with
  | nil => simp [runLoop, eraseNodeEvents_nil, cordonCount_nil]
  | cons img rest ih =>
    obtain ⟨ih1, ih2, ih3, ih4, ih5, ih6⟩ := ih (k + 1)
    by_cases hu : usage k ≤ low
    · simp [runLoop, hu, eraseNodeEvents_nil, cordonCount_nil]
    · rcases houtcome : outcome img with _ | _ | _ | _ | _ <;>
        simp [runLoop, hu, houtcome, eraseNodeEvents_cordon_cons,
          eraseNodeEvents_attempt_cons, eraseNodeEvents_sleep_cons,
          eraseNodeEvents_nil, cordonCount_attempt_cons,
          cordonCount_sleep_cons, cordonCount_nil, ih1, ih2, ih3, ih4, ih5,
          ih6]

/-- C9: with no node identity configured the engine never issues a cordon
or uncordon call, and the rest of its behaviour — trigger decision,
delete attempts, sleeps, counters, remaining candidates and summary — is
identical to a configured-node run on the same inputs (the
configured-node trace reduces to the no-node trace once cordon/uncordon
events are erased). -/
theorem node_setting_noninterference (delay low high : ℚ)
    (outcome : Image → Outcome) (usage : ℕ → ℚ) (snapshot : List Image)
    (u : ℚ) :
    cordonCount (runPass ⟨false, delay, low, high⟩ outcome usage snapshot).events = 0 ∧
    uncordonCount (runPass ⟨false, delay, low, high⟩ outcome usage snapshot).events = 0 ∧
    eraseNodeEvents (runPass ⟨true, delay, low, high⟩ outcome usage snapshot).events =
      (runPass ⟨false, delay, low, high⟩ outcome usage snapshot).events ∧
    (runPass ⟨true, delay, low, high⟩ outcome usage snapshot).deleted =
      (runPass ⟨false, delay, low, high⟩ outcome usage snapshot).deleted ∧
    (runPass ⟨true, delay, low, high⟩ outcome usage snapshot).imagesBefore =
      (runPass ⟨false, delay, low, high⟩ outcome usage snapshot).imagesBefore ∧
    (runPass ⟨true, delay, low, high⟩ outcome usage snapshot).remaining =
      (runPass ⟨false, delay, low, high⟩ outcome usage snapshot).remaining ∧
    (runPass ⟨true, delay, low, high⟩ outcome usage snapshot).imagesDeletedReported =
      (runPass ⟨false, delay, low, high⟩ outcome usage snapshot).imagesDeletedReported ∧
    (runPass ⟨true, delay, low, high⟩ outcome usage snapshot).aborted =
      (runPass ⟨false, delay, low, high⟩ outcome usage snapshot).aborted ∧
    (tick ⟨true, delay, low, high⟩ outcome usage snapshot u = TickResult.idle ↔
      tick ⟨false, delay, low, high⟩ outcome usage snapshot u = TickResult.idle) := by
  obtain ⟨ih1, ih2, ih3, ih4, ih5, ih6⟩ :=
    runLoop_node_erasure delay low high outcome usage
      (get_docker_images snapshot) 0
  have hnu0 := runLoop_no_uncordon ⟨false, delay, low, high⟩ outcome usage
    (get_docker_images snapshot) 0
  have htick : tick ⟨true, delay, low, high⟩ outcome usage snapshot u =
      TickResult.idle ↔
      tick ⟨false, delay, low, high⟩ outcome usage snapshot u =
      TickResult.idle := by
    by_cases hug : u < high
    · simp [tick, hug]
    · simp [tick, hug]
  have hf1 : (if false = true then [Event.cordon] else []) = ([] : List Event) := rfl
  have hf2 : (if false = true then [Event.uncordon] else []) = ([] : List Event) := rfl
  have ht1 : (if True then [Event.cordon] else []) = [Event.cordon] := rfl
  have ht2 : (if True then [Event.uncordon] else []) = [Event.uncordon] := rfl
  by_cases ha : (runLoop ⟨false, delay, low, high⟩ outcome usage
      (get_docker_images snapshot) 0).aborted = true
  · have ha1 : (runLoop ⟨true, delay, low, high⟩ outcome usage
        (get_docker_images snapshot) 0).aborted = true := by
      rw [ih5]; exact ha
    simp only [runPass, if_pos ha, if_pos ha1]
    refine ⟨?_, ?_, ?_, ih2, trivial, ih3, ?_, trivial, htick⟩
    · simp only [hf1, List.nil_append]
      exact ih6
    · simp only [hf1, List.nil_append]
      exact hnu0
    · simp only [ht1, hf1, List.singleton_append, List.nil_append,
        eraseNodeEvents_cordon_cons]
      exact ih1
    · rw [ih3]
  · have ha1 : ¬ (runLoop ⟨true, delay, low, high⟩ outcome usage
        (get_docker_images snapshot) 0).aborted = true := by
      rw [ih5]; exact ha
    simp only [runPass, if_neg ha, if_neg ha1]
    refine ⟨?_, ?_, ?_, ih2, trivial, ih3, ?_, trivial, htick⟩
    · simp only [hf1, hf2, List.nil_append, List.append_nil]
      exact ih6
    · simp only [hf1, hf2, List.nil_append, List.append_nil]
      exact hnu0
    · simp only [ht1, ht2, hf1, hf2, List.singleton_append, List.cons_append,
        List.nil_append, List.append_nil, eraseNodeEvents_append,
        eraseNodeEvents_cordon_cons, eraseNodeEvents_uncordon_cons,
        eraseNodeEvents_nil, ih1]
    · rw [ih3]

end ImageCleaner
